import Mathlib

/-
Verification development for the sgrb_kicks repository (kickIT package).

The orbit-integration state machine of `system.py` (`integrate_orbits`,
`Systems.evolve`) is embedded over the rationals, with the external
collaborators (galpy's orbit integrator, the cosmology age-to-redshift
converter, the wall clock and the random projection rotations of
`transform_orbits`) abstracted as function-valued fields of the
configuration record.  The closed-form physics (`inspiral_time_peters`,
the coordinate transforms of `utils.py`) is embedded over the real
numbers, and the supernova survival classifier (`Systems.check_survival`,
`Systems.inspiral_time`) over an explicit NaN-aware real value type that
mirrors NumPy's comparison semantics (a comparison against NaN is false).
-/

namespace KickIT

/-- Cylindrical orbital state `(R, vR, vT, Z, vZ, Phi)` as handed to and
returned by the galpy orbit integrator (system.py lines 533-544). -/
structure Orb where
  R : ℚ
  vR : ℚ
  vT : ℚ
  Z : ℚ
  vZ : ℚ
  Phi : ℚ
deriving DecidableEq

/-- Final Cartesian values and offsets produced by `transform_orbits`
(system.py lines 710-741): positions, velocities, true offset
`sqrt(R^2+Z^2)` and the randomly rotated projected offset of the last
integration sub-step. -/
structure TOut where
  X : ℚ
  Y : ℚ
  Z : ℚ
  vX : ℚ
  vY : ℚ
  vZ : ℚ
  R_offset : ℚ
  Rproj_offset : ℚ
deriving DecidableEq

/-- Per-system inputs gathered by `Systems.evolve` (system.py lines
356-358): `[idx, SNsurvive, Tinsp, R, Vpx, Vpy, Vpz]`.  The index is
implicit in the list position. -/
structure SysInfo where
  SNsurvive : Bool
  Tinsp : ℚ
  R : ℚ
  Vpx : ℚ
  Vpy : ℚ
  Vpz : ℚ
deriving DecidableEq

/-- Configuration and external collaborators of `integrate_orbits`
(system.py lines 456-492).  `times`, `interp` and the potentials come
from the galaxy object `gal`; `tageToZ` is the cosmology collaborator
`cosmo.tage_to_z`; `integ` stands for building a galpy orbit from a seed
and integrating it for the given duration under the potential of the
given epoch index (lines 561-574 and 594-606); `extract` stands for
reading the last row of the previous orbit (`orb.getOrbit()[-1]`),
reducing `Phi` mod `2*pi` and, in non-interpolated mode, converting the
galpy output back to cgs (lines 538-544); `transform` stands for
`transform_orbits` (Cartesian conversion plus the randomly rotated
projected offset, with the ambient random state folded in); `clock k`
gives the elapsed wall-clock time `time.time()-start_time` observed at
the k-th between-steps budget check (line 630). -/
structure Cfg where
  times : List ℚ
  t0 : ℕ
  interp : Bool
  fixedPotential : Bool
  TinspLim : Bool
  tau : ℚ
  ro : ℚ
  vo : ℚ
  TintMax : ℚ
  tageToZ : ℚ → ℚ
  clock : ℕ → ℚ
  integ : Orb → ℕ → ℚ → Orb
  extract : Orb → Orb
  transform : Orb → TOut

/-- Modelled from the spec: `utils.Tcgs_to_nat`, called by system.py
(lines 511, 550, 570), is absent from utils.py.  The spec (section 2,
Unit Converter) describes the natural unit system as a rescaling by a
reference length `ro` and velocity `vo`, and the sibling
`utils.Tphys_to_nat` divides a time by the reference time `to = ro/vo`;
we model the cgs-to-natural time map as division by the positive
reference time `tau`. -/
def Tcgs_to_nat (cfg : Cfg) (t : ℚ) : ℚ := t / cfg.tau

/-- Modelled from the spec: inverse of `Tcgs_to_nat` (see there);
`utils.Tnat_to_cgs` is called at system.py lines 571, 655, 680 but is
absent from utils.py. -/
def Tnat_to_cgs (cfg : Cfg) (t : ℚ) : ℚ := t * cfg.tau

/-- Working-unit value of a time quantity: natural units when the
fast-interpolated-potential mode is on (system.py lines 510-511,
549-550), cgs otherwise. -/
def wk (cfg : Cfg) (t : ℚ) : ℚ := if cfg.interp then Tcgs_to_nat cfg t else t

/-- Inspiral time of the system in the loop's working units (system.py
lines 509-511). -/
def TinspW (cfg : Cfg) (sys : SysInfo) : ℚ := wk cfg sys.Tinsp

/-- Epoch interval `dt = times[tt+1] - times[tt]` in working units
(system.py lines 546-550). -/
def dtW (cfg : Cfg) (tt : ℕ) : ℚ :=
  wk cfg (cfg.times.getD (tt + 1) 0 - cfg.times.getD tt 0)

/-- Epoch index of the potential used for the current step: the last
epoch when the potential is held fixed, the current one otherwise
(system.py lines 523-527). -/
def potIdx (cfg : Cfg) (tt : ℕ) : ℕ :=
  if cfg.fixedPotential then cfg.times.length - 2 else tt

/-- Initial cylindrical seed at the birth step (system.py lines 530-536):
`cartesian_to_cylindrical(R, 0, 0, Vpx, Vpy, Vpz)` followed by
`vT = R*vPhi` and, in interpolated mode, conversion to natural units.
With `y = z = 0` every component of the conversion is a rational
expression: `sqrt(R^2+0^2) = |R|` and `arctan(0/R) = 0`.  (The
natural-unit conversion `utils.orbit_cgs_to_nat` called at line 536 is
absent from utils.py and is modelled from the spec as division of
lengths by `ro` and velocities by `vo`, the shape of
`utils.orbit_phys_to_nat`.) -/
def seedAtBirth (cfg : Cfg) (sys : SysInfo) : Orb :=
  let R1 := |sys.R|
  let vR := (sys.R * sys.Vpx) / |sys.R|
  let vPhi := (sys.R * sys.Vpy) / (sys.R ^ 2)
  let vT := R1 * vPhi
  if cfg.interp then
    ⟨R1 / cfg.ro, vR / cfg.vo, vT / cfg.vo, 0 / cfg.ro, sys.Vpz / cfg.vo, 0⟩
  else
    ⟨R1, vR, vT, 0, sys.Vpz, 0⟩

/-- Terminal condition of a run of `integrate_orbits`.  The code keeps
boolean flags rather than a state name; the spec calls the outcomes
DISRUPTED (failed supernova survival, line 501), MERGED (merger-stop,
line 582), EXHAUSTED (final epoch boundary reached, line 610) and
TIMED_OUT (wall-clock budget, line 630).  `stuck` marks the two paths on
which the Python code would not produce a result at all (the `while`
guard is false at entry, so `orb` and `merger_redz` are never defined,
or our step budget is exhausted, which a real run cannot reach). -/
inductive Reason where
  | disrupted
  | mergerStop
  | exhausted
  | timedOut
  | stuck
deriving DecidableEq

/-- Mutable state of the main loop of `integrate_orbits` (system.py
lines 494-521): current epoch index `tt`, count `iter` of between-steps
budget checks performed so far, cumulative integrated time `T_elapsed`
in working units, the `INSP_FLAG` and `MERGED` flags, the
`merger_redz` value once assigned, the current galpy orbit, and the log
of integration segments dispatched so far as (potential epoch index,
duration) pairs. -/
structure LoopState where
  tt : ℕ
  iter : ℕ
  T_elapsed : ℚ
  inspFlag : Bool
  merged : Bool
  mz : Option ℚ
  orb : Orb
  segs : List (ℕ × ℚ)
deriving DecidableEq

/-- Return value of `integrate_orbits` (system.py lines 506 and 705):
final Cartesian position and velocity, true and projected offsets
(`none` models the NaN initialisation of line 469 that is returned
unchanged for disrupted systems), the merger redshift (`none` models
NaN; the sentinels 0 and -1 are `some 0` and `some (-1)`), the `MERGED`
flag, the terminal condition, and the log of dispatched integration
segments. -/
structure IntResult where
  X : Option ℚ
  Y : Option ℚ
  Z : Option ℚ
  vX : Option ℚ
  vY : Option ℚ
  vZ : Option ℚ
  R_offset : Option ℚ
  Rproj_offset : Option ℚ
  merger_redz : Option ℚ
  merged : Bool
  reason : Reason
  segs : List (ℕ × ℚ)
deriving DecidableEq

/-- Result assembled after the loop (system.py lines 663-705): the final
orbit is transformed to Cartesian values and offsets (line 664) and
returned together with the merger redshift. -/
def mkResult (cfg : Cfg) (s : LoopState) (reason : Reason) : IntResult :=
  let t := cfg.transform s.orb
  { X := some t.X, Y := some t.Y, Z := some t.Z,
    vX := some t.vX, vY := some t.vY, vZ := some t.vZ,
    R_offset := some t.R_offset, Rproj_offset := some t.Rproj_offset,
    merger_redz := s.mz, merged := s.merged, reason := reason,
    segs := s.segs }

/-- Early return for systems that failed supernova survival (system.py
lines 500-506): the NaN initialisations of line 469 are returned
unchanged, `merger_redz` is NaN, and no integration was dispatched. -/
def nanResult : IntResult :=
  { X := none, Y := none, Z := none, vX := none, vY := none, vZ := none,
    R_offset := none, Rproj_offset := none, merger_redz := none,
    merged := false, reason := Reason.disrupted, segs := [] }

/-- Placeholder result for the two paths on which the Python code would
produce no result (see `Reason.stuck`). -/
def stuckResult (s : LoopState) : IntResult :=
  { X := none, Y := none, Z := none, vX := none, vY := none, vZ := none,
    R_offset := none, Rproj_offset := none, merger_redz := s.mz,
    merged := s.merged, reason := Reason.stuck, segs := s.segs }

/-- Merger redshift computed in the merger branch (system.py lines
566-576): in interpolated mode the absolute age is assembled in natural
units and converted back, `tage_to_z(Tnat_to_cgs(Tcgs_to_nat(times[t0])
+ Tinsp_nat))`; otherwise it is `tage_to_z(times[t0] + Tinsp)`. -/
def mergerRedzVal (cfg : Cfg) (sys : SysInfo) : ℚ :=
  if cfg.interp then
    cfg.tageToZ (Tnat_to_cgs cfg (Tcgs_to_nat cfg (cfg.times.getD cfg.t0 0) + TinspW cfg sys))
  else
    cfg.tageToZ (cfg.times.getD cfg.t0 0 + sys.Tinsp)

/-- Seed of the current integration step (system.py lines 529-544): the
birth-step conversion at `tt == t0`, otherwise the extraction of the
previous orbit's final row. -/
def seedOf (cfg : Cfg) (sys : SysInfo) (s : LoopState) : Orb :=
  if s.tt = cfg.t0 then seedAtBirth cfg sys else cfg.extract s.orb

/-- Merger check at the top of a loop iteration (system.py lines
553-588).  If the cumulative elapsed time plus this step's `dt` strictly
exceeds the inspiral time and `INSP_FLAG` is not yet set, the step is
shortened to `dt_merge = Tinsp - T_elapsed`, only that partial segment
is integrated from the current seed, the merger redshift is recorded and
both flags are set; when `Tinsp_lim` is on the run finishes here with
the partial-step orbit, otherwise the updated state falls through to the
full step. -/
def mergerPhase (cfg : Cfg) (sys : SysInfo) (seed : Orb) (s : LoopState) :
    IntResult ⊕ LoopState :=
  if TinspW cfg sys < s.T_elapsed + dtW cfg s.tt ∧ s.inspFlag = false then
    let dtm := TinspW cfg sys - s.T_elapsed
    let s1 : LoopState :=
      { s with inspFlag := true, merged := true,
               mz := some (mergerRedzVal cfg sys),
               orb := cfg.integ seed (potIdx cfg s.tt) dtm,
               segs := s.segs ++ [(potIdx cfg s.tt, dtm)] }
    if cfg.TinspLim then Sum.inl (mkResult cfg s1 Reason.mergerStop)
    else Sum.inr s1
  else Sum.inr s

/-- Full epoch step (system.py lines 591-606): `T_elapsed += dt` and the
orbit is integrated through the whole epoch interval from the same seed
that was extracted at the top of the iteration. -/
def fullStep (cfg : Cfg) (seed : Orb) (tt : ℕ) (s : LoopState) : LoopState :=
  { s with T_elapsed := s.T_elapsed + dtW cfg tt,
           orb := cfg.integ seed (potIdx cfg tt) (dtW cfg tt),
           segs := s.segs ++ [(potIdx cfg tt, dtW cfg tt)] }

/-- Epoch-exhaustion termination (system.py lines 609-626): when the
current step reached the final epoch boundary, the run finishes; if no
merger was flagged, `merger_redz` is set to the sentinel 0, otherwise
the previously recorded merger redshift is kept. -/
def exhaustResult (cfg : Cfg) (s : LoopState) : IntResult :=
  mkResult cfg { s with mz := if s.merged then s.mz else some 0 } Reason.exhausted

/-- Wall-clock-budget termination (system.py lines 629-639):
`merger_redz` is set to the sentinel -1 (overwriting a merger redshift
recorded earlier in a non-stopping merger branch). -/
def timeoutResult (cfg : Cfg) (s : LoopState) : IntResult :=
  mkResult cfg { s with mz := some (-1) } Reason.timedOut

/-- Main loop of `integrate_orbits` (system.py lines 517-660), written
with a step budget (`fuel`) so that the recursion is structural; a real
run dispatches at most `len(times)` iterations, and the checks appear in
the code's order: merger check, full step, epoch exhaustion, wall-clock
budget, next epoch. -/
def runLoop (cfg : Cfg) (sys : SysInfo) : ℕ → LoopState → IntResult
  | 0, s => stuckResult s
  | fuel + 1, s =>
    if s.tt + 1 < cfg.times.length then
      match mergerPhase cfg sys (seedOf cfg sys s) s with
      | Sum.inl r => r
      | Sum.inr s1 =>
        let s2 := fullStep cfg (seedOf cfg sys s) s.tt s1
        if s.tt = cfg.times.length - 2 then exhaustResult cfg s2
        else if cfg.TintMax < cfg.clock s.iter then timeoutResult cfg s2
        else runLoop cfg sys fuel { s2 with tt := s.tt + 1, iter := s.iter + 1 }
    else stuckResult s

/-- Loop state at entry (system.py lines 494-519): `tt = t0`, no time
elapsed, both flags down, no merger redshift assigned, no segments
dispatched. -/
def initState (cfg : Cfg) (sys : SysInfo) : LoopState :=
  { tt := cfg.t0, iter := 0, T_elapsed := 0, inspFlag := false,
    merged := false, mz := none, orb := seedAtBirth cfg sys, segs := [] }

/-- Top level of `integrate_orbits` (system.py lines 456-705): systems
that failed supernova survival return the all-NaN result immediately;
surviving systems run the main loop starting at epoch `t0`. -/
def integrate_orbits (cfg : Cfg) (sys : SysInfo) : IntResult :=
  if sys.SNsurvive = false then nanResult
  else runLoop cfg sys cfg.times.length (initState cfg sys)

/-- Dummy system used as the (never reached) default of an
out-of-range list access in the pool model. -/
def sysDefault : SysInfo := ⟨false, 0, 0, 0, 0, 0⟩

/-- Serial branch of `Systems.evolve` (system.py lines 384-405): the
systems are integrated one after another in ensemble order and the
per-system results are appended in that order. -/
def evolveSerial (cfg : Cfg) (systems : List SysInfo) : List IntResult :=
  systems.map (integrate_orbits cfg)

/-- Parallel branch of `Systems.evolve` (system.py lines 360-378),
with the semantics of Python's `multiprocessing.Pool.map` made explicit:
workers complete the independent per-system tasks in an arbitrary
scheduling order `sched` (a permutation of the input indices), and
`pool.map`'s contract reassembles the results by input index, so the
output list is indexed by the original ensemble position. -/
def poolMapOrbits (cfg : Cfg) (systems : List SysInfo) (sched : List ℕ) :
    List IntResult :=
  let completed := sched.map (fun i => (i, integrate_orbits cfg (systems.getD i sysDefault)))
  (List.range systems.length).map (fun j => (completed.lookup j).getD nanResult)

/-- The nine per-system result arrays stored back into the ensemble by
`Systems.evolve` (system.py lines 378 and 394-417):
`X, Y, Z, vX, vY, vZ, R_offset, Rproj_offset, merger_redz`. -/
def evolveArrays (rs : List IntResult) :
    List (Option ℚ) × List (Option ℚ) × List (Option ℚ) × List (Option ℚ) ×
    List (Option ℚ) × List (Option ℚ) × List (Option ℚ) × List (Option ℚ) ×
    List (Option ℚ) :=
  (rs.map (fun r => r.X), rs.map (fun r => r.Y), rs.map (fun r => r.Z),
   rs.map (fun r => r.vX), rs.map (fun r => r.vY), rs.map (fun r => r.vZ),
   rs.map (fun r => r.R_offset), rs.map (fun r => r.Rproj_offset),
   rs.map (fun r => r.merger_redz))

/-- Minimum of a list of rationals, `weights.min()` of NumPy
(meaningful for nonempty input, as NumPy's is). -/
def lmin : List ℚ → ℚ
  | [] => 0
  | x :: xs => xs.foldl min x

/-- Maximum of a list of rationals, `weights.max()` of NumPy. -/
def lmax : List ℚ → ℚ
  | [] => 0
  | x :: xs => xs.foldl max x

/-- Embedding of `normalize_weights` (convolve.py lines 23-31):
`weights = (weights - weights.min()) / (weights.max() - weights.min())`,
elementwise over the array. -/
def normalize_weights (weights : List ℚ) : List ℚ :=
  weights.map (fun w => (w - lmin weights) / (lmax weights - lmin weights))

/-- The constant `coef = 6.086768e-11` of `inspiral_time_peters`
(utils.py line 95): the value of `G^3/c^5` in AU, gigayear, solar-mass
units. -/
noncomputable def coefGc : ℝ := 6.086768e-11

/-- The factor `beta = (64/5) * coef * m1 * m2 * (m1+m2)` of
`inspiral_time_peters` (utils.py line 96). -/
noncomputable def beta (m1 m2 : ℝ) : ℝ := (64 / 5) * coefGc * m1 * m2 * (m1 + m2)

/-- The constant `c0` of `inspiral_time_peters` (utils.py line 104),
defined from the initial conditions for an eccentric orbit. -/
noncomputable def c0peters (a0 e0 : ℝ) : ℝ :=
  a0 * (1 - e0 ^ 2) * e0 ^ ((-12 : ℝ) / 19) * (1 + (121 / 304) * e0 ^ 2) ^ ((-870 : ℝ) / 2299)

/-- Return value of `inspiral_time_peters`: the scalar inspiral time for
`af = 0`, the `(t_insp, af, ef)` triple for `af != 0`, or the signalled
error for a circular binary with a non-zero target axis (utils.py lines
99-101 print an error message and return the scalar 0). -/
inductive PetersOut where
  | error : PetersOut
  | time (t : ℝ) : PetersOut
  | target (t af ef : ℝ) : PetersOut

/-- Embedding of `inspiral_time_peters` (utils.py lines 78-124).  The
two numerical collaborators are abstracted: `quadInt lo hi` stands for
`scipy.integrate.quad` applied to the fixed eccentricity integrand
`e^(29/19) (1+(121/304)e^2)^(1181/2299) / (1-e^2)^1.5` over `[lo, hi]`,
and `odeE a0 e0 af` for the final eccentricity produced by the
`deda_peters` ODE integration from `(a0, e0)` to `af`. -/
noncomputable def inspiral_time_peters (quadInt : ℝ → ℝ → ℝ) (odeE : ℝ → ℝ → ℝ → ℝ)
    (a0 e0 m1 m2 af : ℝ) : PetersOut :=
  if e0 = 0 then
    if af ≠ 0 then PetersOut.error
    else PetersOut.time (a0 ^ 4 / (4 * beta m1 m2))
  else
    let c0 := c0peters a0 e0
    let eFinal := if af = 0 then 0 else odeE a0 e0 af
    let integral := quadInt eFinal e0
    if af = 0 then PetersOut.time (integral * (12 / 19) * c0 ^ 4 / beta m1 m2)
    else PetersOut.target (integral * (12 / 19) * c0 ^ 4 / beta m1 m2) af eFinal

/-- The `af = 0` scalar branch of `inspiral_time_peters` as used by
`Systems.inspiral_time` (system.py line 314): the total time to merger. -/
noncomputable def petersTmerge (quadInt : ℝ → ℝ → ℝ) (a0 e0 m1 m2 : ℝ) : ℝ :=
  if e0 = 0 then a0 ^ 4 / (4 * beta m1 m2)
  else quadInt 0 e0 * (12 / 19) * c0peters a0 e0 ^ 4 / beta m1 m2

/-- Embedding of `cartesian_to_cylindrical` (utils.py lines 129-144),
returning `(R, Phi, Z, vR, vPhi, vZ)`.  The astropy `.to(...)` unit
conversions are value-preserving on the physical quantities and are
dropped; note the code uses `arctan(y/x)`, not a two-argument
arctangent. -/
noncomputable def cartesian_to_cylindrical (x y z vx vy vz : ℝ) :
    ℝ × ℝ × ℝ × ℝ × ℝ × ℝ :=
  (Real.sqrt (x ^ 2 + y ^ 2), Real.arctan (y / x), z,
   (x * vx + y * vy) / Real.sqrt (x ^ 2 + y ^ 2),
   (x * vy - y * vx) / (x ^ 2 + y ^ 2), vz)

/-- Embedding of `cylindrical_to_cartesian` (utils.py lines 147-162),
returning `(x, y, z, vx, vy, vz)`. -/
noncomputable def cylindrical_to_cartesian (R Phi Z vR vPhi vZ : ℝ) :
    ℝ × ℝ × ℝ × ℝ × ℝ × ℝ :=
  (R * Real.cos Phi, R * Real.sin Phi, Z,
   vR * Real.cos Phi - R * Real.sin Phi * vPhi,
   vR * Real.sin Phi + R * Real.cos Phi * vPhi, vZ)

/-- Composition `cylindrical_to_cartesian(cartesian_to_cylindrical(...))`
of the spec's round-trip property. -/
noncomputable def roundTrip (x y z vx vy vz : ℝ) : ℝ × ℝ × ℝ × ℝ × ℝ × ℝ :=
  match cartesian_to_cylindrical x y z vx vy vz with
  | (R, Phi, Z, vR, vPhi, vZ) => cylindrical_to_cartesian R Phi Z vR vPhi vZ

/-- Real value with NaN, mirroring an IEEE/NumPy double as used by
`Systems.SN` and `Systems.check_survival`: `nan` arises from a negative
argument under a square root (system.py line 113) and propagates through
arithmetic, and any order comparison against it is false. -/
inductive RVal where
  | nan : RVal
  | val (x : ℝ) : RVal

namespace RVal

/-- NaN-propagating addition. -/
noncomputable def add : RVal → RVal → RVal
  | val a, val b => val (a + b)
  | _, _ => nan

/-- NaN-propagating subtraction. -/
noncomputable def sub : RVal → RVal → RVal
  | val a, val b => val (a - b)
  | _, _ => nan

/-- NaN-propagating multiplication. -/
noncomputable def mul : RVal → RVal → RVal
  | val a, val b => val (a * b)
  | _, _ => nan

/-- NaN-propagating division.  A zero divisor is modelled as NaN (NumPy
produces inf or NaN with a runtime warning there; no behaviour claimed
of the code distinguishes the two, and a comparison against either inf
with both sides infinite never arises in the checks). -/
noncomputable def div : RVal → RVal → RVal
  | val a, val b => if b = 0 then nan else val (a / b)
  | _, _ => nan

/-- Square root: NaN on a negative argument (`np.sqrt` of a negative
number), NaN-propagating otherwise. -/
noncomputable def sqrt : RVal → RVal
  | val a => if 0 ≤ a then val (Real.sqrt a) else nan
  | nan => nan

/-- Comparison `<=` with NumPy semantics: false whenever either side is
NaN. -/
noncomputable def le : RVal → RVal → Bool
  | val a, val b => decide (a ≤ b)
  | _, _ => false

/-- Comparison `<` with NumPy semantics: false whenever either side is
NaN. -/
noncomputable def lt : RVal → RVal → Bool
  | val a, val b => decide (a < b)
  | _, _ => false

end RVal

/-- One row of the system ensemble as seen by `Systems.check_survival`
(system.py lines 126-178): the sampled progenitor properties (real
positive numbers), the pre-SN relative orbital speed `Vr` computed at
line 106, and the post-SN elements `Apost`, `epost` of lines 111-113,
which may be NaN (`epost = sqrt(1-x)` with `x > 1`) or carry over a
division by zero. -/
structure Row where
  Mns : ℝ
  Mcomp : ℝ
  Mhe : ℝ
  Apre : ℝ
  Vkick : ℝ
  Vr : ℝ
  Apost : RVal
  epost : RVal

/-- Default row used with `List.getD` in ensemble-indexed statements. -/
noncomputable def rowD : Row := ⟨0, 0, 0, 0, 0, 0, RVal.nan, RVal.nan⟩

/-- Newton's constant in cgs units, `C.G.cgs.value` of astropy
(system.py line 141). -/
noncomputable def Gcgs : ℝ := 6.6743e-8

/-- Survival Check 1 (system.py line 146): continuity,
`1 - epost <= Apre/Apost <= 1 + epost`. -/
noncomputable def SNcheck1 (r : Row) : Bool :=
  RVal.le (RVal.sub (RVal.val 1) r.epost) (RVal.div (RVal.val r.Apre) r.Apost) &&
  RVal.le (RVal.div (RVal.val r.Apre) r.Apost) (RVal.add (RVal.val 1) r.epost)

/-- Survival Check 2 (system.py line 149): bounds on the orbital
contraction or expansion given the mass loss and kick velocity. -/
noncomputable def SNcheck2 (r : Row) : Bool :=
  let Mtot_pre := r.Mhe + r.Mcomp
  let Mtot_post := r.Mns + r.Mcomp
  RVal.lt (RVal.div (RVal.val r.Apre) r.Apost)
      (RVal.val (2 - (Mtot_pre / Mtot_post) * (r.Vkick / r.Vr - 1) ^ 2)) &&
  RVal.lt (RVal.val (2 - (Mtot_pre / Mtot_post) * (r.Vkick / r.Vr + 1) ^ 2))
      (RVal.div (RVal.val r.Apre) r.Apost)

/-- Survival Check 3 (system.py line 154): the kick-to-relative-velocity
ratio is bounded above by the escape criterion, with the alternate
branch when more than half the total mass is lost. -/
noncomputable def SNcheck3 (r : Row) : Bool :=
  let Mtot_pre := r.Mhe + r.Mcomp
  let Mtot_post := r.Mns + r.Mcomp
  decide (r.Vkick / r.Vr < 1 + Real.sqrt (2 * Mtot_post / Mtot_pre)) &&
  (decide ((1 : ℝ) / 2 < Mtot_post / Mtot_pre) ||
   decide (1 - Real.sqrt (2 * Mtot_post / Mtot_pre) < r.Vkick / r.Vr))

/-- The quadratic-derived maximum progenitor mass of Check 4 (system.py
lines 164-168): `kvar`, its square-root terms and
`max_val = -Mcomp + term1/(term2+term3)`, evaluated with NaN-propagating
arithmetic. -/
noncomputable def maxVal (r : Row) : RVal :=
  let Mtot_post := r.Mns + r.Mcomp
  let kvar := RVal.sub (RVal.mul (RVal.val 2) (RVal.div r.Apost (RVal.val r.Apre)))
      (RVal.add (RVal.div (RVal.mul (RVal.val (r.Vkick ^ 2)) r.Apost)
          (RVal.val (Gcgs * Mtot_post))) (RVal.val 1))
  let term1 := RVal.mul (RVal.mul (RVal.mul kvar kvar) (RVal.val Mtot_post))
      (RVal.div (RVal.val r.Apre) r.Apost)
  let term2 := RVal.sub (RVal.mul (RVal.mul (RVal.val 2)
          (RVal.mul (RVal.div r.Apost (RVal.val r.Apre)) (RVal.div r.Apost (RVal.val r.Apre))))
        (RVal.sub (RVal.val 1) (RVal.mul r.epost r.epost))) kvar
  let term3 := RVal.mul (RVal.mul (RVal.mul (RVal.val (-2)) (RVal.div r.Apost (RVal.val r.Apre)))
        (RVal.sqrt (RVal.sub (RVal.val 1) (RVal.mul r.epost r.epost))))
      (RVal.sqrt (RVal.sub (RVal.mul (RVal.mul (RVal.div r.Apost (RVal.val r.Apre))
            (RVal.div r.Apost (RVal.val r.Apre)))
          (RVal.sub (RVal.val 1) (RVal.mul r.epost r.epost))) kvar))
  RVal.add (RVal.val (-r.Mcomp)) (RVal.div term1 (RVal.add term2 term3))

/-- Survival Check 4 (system.py lines 156-170): first `epost <= 1` is
required (false for `epost > 1` and for NaN `epost`, matching NumPy);
only over the subset of systems passing that first condition is the
quadratic of `maxVal` evaluated and compared against `Mhe`. -/
noncomputable def SNcheck4 (r : Row) : Bool :=
  if RVal.le r.epost (RVal.val 1) = true then
    RVal.le (RVal.val r.Mhe) (maxVal r)
  else false

/-- Conjunction of the four survival checks for one system (system.py
line 174). -/
noncomputable def SNsurviveSys (r : Row) : Bool :=
  SNcheck1 r && SNcheck2 r && SNcheck3 r && SNcheck4 r

/-- Ensemble-level `Systems.check_survival` (system.py lines 126-178):
all four checks are elementwise over the per-system arrays, so the
survival flag of each row is a function of that row alone. -/
noncomputable def check_survival (rows : List Row) : List Bool :=
  rows.map SNsurviveSys

/-- Unit-conversion factors used by `Systems.inspiral_time` (system.py
lines 309-314): grams to solar masses, centimetres to AU, gigayears to
seconds.  Their numerical values play no role in the claims, so they are
parameters. -/
structure UnitConv where
  gToMsun : ℝ
  cmToAU : ℝ
  gyrToS : ℝ

/-- Embedding of `Systems.inspiral_time` (system.py lines 291-314):
`Tinsp` is initialised to NaN for every system; disrupted systems are
skipped, and for surviving systems the Peters formula is evaluated at
`m1 = Mcomp`, `m2 = Mns`, `a0 = Apost`, `e0 = epost` (unit-converted)
and scaled from gigayears to seconds.  The NaN arm of the inner match is
unreachable for surviving systems (Check 1 and Check 4 force real
`Apost` and `epost`; see the theorem for claim C10). -/
noncomputable def inspiral_times (uc : UnitConv) (quadInt : ℝ → ℝ → ℝ)
    (rows : List Row) : List RVal :=
  rows.map (fun r =>
    if SNsurviveSys r = true then
      match r.Apost, r.epost with
      | RVal.val a, RVal.val e =>
          RVal.val (petersTmerge quadInt (a * uc.cmToAU) e
            (r.Mcomp * uc.gToMsun) (r.Mns * uc.gToMsun) * uc.gyrToS)
      | _, _ => RVal.nan
    else RVal.nan)

/-- Concrete configuration used by witness instances: three epochs, no
interpolation, merger-stopping on, generous wall-clock budget, and
simple total stand-ins for the oracle collaborators. -/
def cfgT : Cfg :=
  { times := [0, 10, 20], t0 := 0, interp := false, fixedPotential := false,
    TinspLim := true, tau := 1, ro := 1, vo := 1, TintMax := 1000,
    tageToZ := fun t => t + 1, clock := fun _ => 0,
    integ := fun o p d => ⟨o.R + d, o.vR, o.vT, o.Z + (p : ℚ), o.vZ, o.Phi⟩,
    extract := fun o => o,
    transform := fun o => ⟨o.R, o.vR, o.Z, o.vT, o.vZ, o.Phi, o.R, o.Z⟩ }

/-- Concrete configuration witnessing the precedence of the
epoch-exhaustion check over the wall-clock budget check: a single epoch
interval, merger-stopping off, a zero budget and a clock that reads 100
from the start. -/
def cfgO : Cfg :=
  { cfgT with times := [0, 10], TinspLim := false, TintMax := 0,
              clock := fun _ => 100 }

/-- Concrete configuration with three epochs, merger-stopping off, a
zero wall-clock budget and a clock that reads 100: the budget check at
the first (non-final) epoch step fires. -/
def cfgQ : Cfg :=
  { cfgT with TintMax := 0, clock := fun _ => 100, TinspLim := false }

/-- Surviving system whose inspiral time exceeds every fixture's epoch
span. -/
def sysT : SysInfo := ⟨true, 1000, 1, 2, 3, 4⟩

/-- Surviving system that merges within the first epoch interval of
`cfgT`. -/
def sysW : SysInfo := ⟨true, 5, 1, 2, 3, 4⟩

/-- System that failed supernova survival. -/
def sysF : SysInfo := ⟨false, 5, 1, 2, 3, 4⟩

/-- A second surviving system, distinct from `sysT`. -/
def sysU : SysInfo := ⟨true, 12, 2, 1, 1, 1⟩

/-- Concrete ensemble row with a hyperbolic (unbound) post-SN orbit,
`epost = 2 > 1`. -/
noncomputable def rowE : Row := ⟨1, 1, 1, 1, 1, 1, RVal.val 1, RVal.val 2⟩

/-- Trivial unit-conversion fixture. -/
noncomputable def uc0 : UnitConv := ⟨1, 1, 1⟩

/-- Trivial quadrature oracle fixture. -/
noncomputable def quad0 : ℝ → ℝ → ℝ := fun _ _ => 0

/-- Trivial eccentricity-ODE oracle fixture. -/
noncomputable def ode0 : ℝ → ℝ → ℝ → ℝ := fun _ _ _ => 0

/-! Helper lemmas. -/

/-- Folding `min` never exceeds the initial accumulator. -/
theorem foldl_min_le_init (xs : List ℚ) (acc : ℚ) : xs.foldl min acc ≤ acc := by
  induction xs generalizing acc with
  | nil => exact le_rfl
  | cons x t ih => exact le_trans (ih (min acc x)) (min_le_left _ _)

/-- Folding `min` never exceeds any list element. -/
theorem foldl_min_le_mem (xs : List ℚ) (acc a : ℚ) (ha : a ∈ xs) :
    xs.foldl min acc ≤ a := by
  induction xs generalizing acc with
  | nil => cases ha
  | cons x t ih =>
    rcases List.mem_cons.mp ha with h | h
    · subst h
      exact le_trans (foldl_min_le_init t _) (min_le_right _ _)
    · exact ih _ h

/-- Folding `min` returns the accumulator or a list element. -/
theorem foldl_min_mem (xs : List ℚ) (acc : ℚ) :
    xs.foldl min acc = acc ∨ xs.foldl min acc ∈ xs := by
  induction xs generalizing acc with
  | nil => exact Or.inl rfl
  | cons x t ih =>
    rcases ih (min acc x) with h | h
    · rcases le_total acc x with hax | hxa
      · exact Or.inl (by rw [List.foldl_cons, h, min_eq_left hax])
      · exact Or.inr (by rw [List.foldl_cons, h, min_eq_right hxa]; exact List.mem_cons_self x t)
    · exact Or.inr (List.mem_cons_of_mem x h)

/-- Folding `max` is at least the initial accumulator. -/
theorem foldl_max_ge_init (xs : List ℚ) (acc : ℚ) : acc ≤ xs.foldl max acc := by
  induction xs generalizing acc with
  | nil => exact le_rfl
  | cons x t ih => exact le_trans (le_max_left _ _) (ih (max acc x))

/-- Folding `max` is at least any list element. -/
theorem foldl_max_ge_mem (xs : List ℚ) (acc a : ℚ) (ha : a ∈ xs) :
    a ≤ xs.foldl max acc := by
  induction xs generalizing acc with
  | nil => cases ha
  | cons x t ih =>
    rcases List.mem_cons.mp ha with h | h
    · subst h
      exact le_trans (le_max_right _ _) (foldl_max_ge_init t _)
    · exact ih _ h

/-- Folding `max` returns the accumulator or a list element. -/
theorem foldl_max_mem (xs : List ℚ) (acc : ℚ) :
    xs.foldl max acc = acc ∨ xs.foldl max acc ∈ xs := by
  induction xs generalizing acc with
  | nil => exact Or.inl rfl
  | cons x t ih =>
    rcases ih (max acc x) with h | h
    · rcases le_total x acc with hxa | hax
      · exact Or.inl (by rw [List.foldl_cons, h, max_eq_left hxa])
      · exact Or.inr (by rw [List.foldl_cons, h, max_eq_right hax]; exact List.mem_cons_self x t)
    · exact Or.inr (List.mem_cons_of_mem x h)

/-- The list minimum is a lower bound. -/
theorem lmin_le (l : List ℚ) (a : ℚ) (ha : a ∈ l) : lmin l ≤ a := by
  cases l with
  | nil => cases ha
  | cons x xs =>
    rcases List.mem_cons.mp ha with h | h
    · rw [h]; exact foldl_min_le_init xs x
    · exact foldl_min_le_mem xs x a h

/-- The list maximum is an upper bound. -/
theorem le_lmax (l : List ℚ) (a : ℚ) (ha : a ∈ l) : a ≤ lmax l := by
  cases l with
  | nil => cases ha
  | cons x xs =>
    rcases List.mem_cons.mp ha with h | h
    · rw [h]; exact foldl_max_ge_init xs x
    · exact foldl_max_ge_mem xs x a h

/-- The minimum of a nonempty list is attained. -/
theorem lmin_mem (l : List ℚ) (h : l ≠ []) : lmin l ∈ l := by
  cases l with
  | nil => exact absurd rfl h
  | cons x xs =>
    have hdef : lmin (x :: xs) = xs.foldl min x := rfl
    rcases foldl_min_mem xs x with h1 | h1
    · rw [hdef, h1]; exact List.mem_cons_self x xs
    · rw [hdef]; exact List.mem_cons_of_mem x h1

/-- The maximum of a nonempty list is attained. -/
theorem lmax_mem (l : List ℚ) (h : l ≠ []) : lmax l ∈ l := by
  cases l with
  | nil => exact absurd rfl h
  | cons x xs =>
    have hdef : lmax (x :: xs) = xs.foldl max x := rfl
    rcases foldl_max_mem xs x with h1 | h1
    · rw [hdef, h1]; exact List.mem_cons_self x xs
    · rw [hdef]; exact List.mem_cons_of_mem x h1

/-- For a positive reference time the merger redshift computed in the
merger branch equals the cosmology conversion of the absolute cgs age
`times[t0] + Tinsp` in both unit modes: in interpolated mode the natural
unit conversions cancel exactly. -/
theorem mergerRedzVal_eq (cfg : Cfg) (sys : SysInfo) (htau : 0 < cfg.tau) :
    mergerRedzVal cfg sys = cfg.tageToZ (cfg.times.getD cfg.t0 0 + sys.Tinsp) := by
  have hne : cfg.tau ≠ 0 := ne_of_gt htau
  cases h : cfg.interp with
  | false => simp [mergerRedzVal, h]
  | true =>
    simp only [mergerRedzVal, Tnat_to_cgs, Tcgs_to_nat, TinspW, wk, h, if_true]
    congr 1
    field_simp

/-! Claim theorems. -/

/-- Looking up a key in the graph of a function over a schedule returns
the function's value at that key whenever the key was scheduled. -/
theorem lookup_map_graph {β : Type} (g : ℕ → β) (sched : List ℕ) (j : ℕ)
    (hj : j ∈ sched) :
    (sched.map (fun i => (i, g i))).lookup j = some (g j) := by
  induction sched with
  | nil => cases hj
  | cons i t ih =>
    by_cases h : j = i
    · subst h
      simp [List.lookup]
    · have hjt : j ∈ t := by
        rcases List.mem_cons.mp hj with h1 | h1
        · exact absurd h1 h
        · exact h1
      have hbeq : (j == i) = false := beq_eq_false_iff_ne.mpr h
      simpa [List.lookup, hbeq] using ih hjt

/-- C2: for every system with `SNsurvive = False`, `integrate_orbits`
returns immediately — no integration segment is dispatched — with NaN
(modelled as `none`) for all six Cartesian position/velocity components,
NaN for both the true and projected offsets, and NaN for the merger
redshift. -/
theorem spec_C2 (cfg : Cfg) (sys : SysInfo) (h : sys.SNsurvive = false) :
    integrate_orbits cfg sys = nanResult ∧
    (integrate_orbits cfg sys).X = none ∧ (integrate_orbits cfg sys).Y = none ∧
    (integrate_orbits cfg sys).Z = none ∧ (integrate_orbits cfg sys).vX = none ∧
    (integrate_orbits cfg sys).vY = none ∧ (integrate_orbits cfg sys).vZ = none ∧
    (integrate_orbits cfg sys).R_offset = none ∧
    (integrate_orbits cfg sys).Rproj_offset = none ∧
    (integrate_orbits cfg sys).merger_redz = none ∧
    (integrate_orbits cfg sys).segs = [] := by
  have hmain : integrate_orbits cfg sys = nanResult := by
    simp [integrate_orbits, h]
  refine ⟨hmain, ?_, ?_, ?_, ?_, ?_, ?_, ?_, ?_, ?_, ?_⟩ <;> rw [hmain] <;> rfl

/-- Witness for C2 at a concrete disrupted system. -/
theorem spec_C2_witness :
    integrate_orbits cfgT sysF = nanResult ∧
    (integrate_orbits cfgT sysF).X = none ∧ (integrate_orbits cfgT sysF).Y = none ∧
    (integrate_orbits cfgT sysF).Z = none ∧ (integrate_orbits cfgT sysF).vX = none ∧
    (integrate_orbits cfgT sysF).vY = none ∧ (integrate_orbits cfgT sysF).vZ = none ∧
    (integrate_orbits cfgT sysF).R_offset = none ∧
    (integrate_orbits cfgT sysF).Rproj_offset = none ∧
    (integrate_orbits cfgT sysF).merger_redz = none ∧
    (integrate_orbits cfgT sysF).segs = [] :=
  spec_C2 cfgT sysF rfl

/-- C9: for every non-constant input weights list, `normalize_weights`
returns values all in `[0, 1]`, with the value `1` attained (at an input
maximum) and the value `0` attained (at an input minimum). -/
theorem spec_C9 (l : List ℚ) (a b : ℚ) (ha : a ∈ l) (hb : b ∈ l) (hne : a ≠ b) :
    (∀ y ∈ normalize_weights l, 0 ≤ y ∧ y ≤ 1) ∧
    (1 : ℚ) ∈ normalize_weights l ∧ (0 : ℚ) ∈ normalize_weights l := by
  have hnil : l ≠ [] := List.ne_nil_of_mem ha
  have hlt : lmin l < lmax l := by
    rcases lt_or_le (lmin l) (lmax l) with h | h
    · exact h
    · exfalso
      apply hne
      have ea : a = lmin l :=
        le_antisymm (le_trans (le_lmax l a ha) h) (lmin_le l a ha)
      have eb : b = lmin l :=
        le_antisymm (le_trans (le_lmax l b hb) h) (lmin_le l b hb)
      rw [ea, eb]
  have hpos : 0 < lmax l - lmin l := sub_pos.mpr hlt
  refine ⟨?_, ?_, ?_⟩
  · intro y hy
    obtain ⟨w, hw, rfl⟩ := List.mem_map.mp hy
    constructor
    · exact div_nonneg (sub_nonneg.mpr (lmin_le l w hw)) hpos.le
    · rw [div_le_one hpos]
      have := le_lmax l w hw
      linarith
  · refine List.mem_map.mpr ⟨lmax l, lmax_mem l hnil, ?_⟩
    field_simp
  · refine List.mem_map.mpr ⟨lmin l, lmin_mem l hnil, ?_⟩
    simp

/-- Witness for C9 at a concrete non-constant weights list. -/
theorem spec_C9_witness :
    (∀ y ∈ normalize_weights [1, 3, 2], 0 ≤ y ∧ y ≤ 1) ∧
    (1 : ℚ) ∈ normalize_weights [1, 3, 2] ∧ (0 : ℚ) ∈ normalize_weights [1, 3, 2] :=
  spec_C9 [1, 3, 2] 1 3 (by decide) (by decide) (by decide)

/-- C1: for a surviving system with merger-stopping enabled
(`Tinsp_lim = True`), at any loop iteration where `INSP_FLAG` is down
and the cumulative elapsed time plus this epoch's interval
`dt = times[tt+1] - times[tt]` strictly exceeds the inspiral time (all
in the loop's working unit system, which is cgs when `interp` is off and
cgs rescaled by the positive reference time `tau` when it is on, a
rescaling that preserves the comparison), the loop shortens the step to
`dt_merge = Tinsp - T_elapsed`, dispatches only that partial segment,
sets the merger redshift to the cosmology conversion of the absolute age
`times[t0] + Tinsp`, and stops with terminal condition MERGED. -/
theorem spec_C1 (cfg : Cfg) (sys : SysInfo) (fuel : ℕ) (s : LoopState)
    (htau : 0 < cfg.tau)
    (hguard : s.tt + 1 < cfg.times.length)
    (hlim : cfg.TinspLim = true)
    (hflag : s.inspFlag = false)
    (hexc : TinspW cfg sys < s.T_elapsed + dtW cfg s.tt) :
    runLoop cfg sys (fuel + 1) s =
      mkResult cfg
        { s with
            inspFlag := true
            merged := true
            mz := some (cfg.tageToZ (cfg.times.getD cfg.t0 0 + sys.Tinsp))
            orb := cfg.integ (seedOf cfg sys s) (potIdx cfg s.tt)
                     (TinspW cfg sys - s.T_elapsed)
            segs := s.segs ++ [(potIdx cfg s.tt, TinspW cfg sys - s.T_elapsed)] }
        Reason.mergerStop := by
  have hcond : TinspW cfg sys < s.T_elapsed + dtW cfg s.tt ∧ s.inspFlag = false :=
    ⟨hexc, hflag⟩
  rw [runLoop, if_pos hguard, mergerPhase, if_pos hcond]
  dsimp only
  rw [if_pos hlim]
  dsimp only
  rw [mergerRedzVal_eq cfg sys htau]

/-- Witness for C1: `sysW` merges within the first epoch interval of
`cfgT`. -/
theorem spec_C1_witness :
    runLoop cfgT sysW (2 + 1) (initState cfgT sysW) =
      mkResult cfgT
        { initState cfgT sysW with
            inspFlag := true
            merged := true
            mz := some (cfgT.tageToZ (cfgT.times.getD cfgT.t0 0 + sysW.Tinsp))
            orb := cfgT.integ (seedOf cfgT sysW (initState cfgT sysW))
                     (potIdx cfgT (initState cfgT sysW).tt)
                     (TinspW cfgT sysW - (initState cfgT sysW).T_elapsed)
            segs := (initState cfgT sysW).segs ++
              [(potIdx cfgT (initState cfgT sysW).tt,
                TinspW cfgT sysW - (initState cfgT sysW).T_elapsed)] }
        Reason.mergerStop :=
  spec_C1 cfgT sysW 2 (initState cfgT sysW)
    (by norm_num [cfgT])
    (by norm_num [cfgT, initState])
    rfl rfl
    (by norm_num [cfgT, sysW, initState, TinspW, dtW, wk, Tcgs_to_nat])

/-- C3: at any loop iteration that reaches the final epoch boundary
(`tt = len(times) - 2`) with no merger flagged — neither previously
(`MERGED` down) nor by this iteration's merger check — the run
terminates with terminal condition EXHAUSTED and merger redshift exactly
the sentinel `0`, which is distinct from the NaN (`none`) returned for
disrupted systems. -/
theorem spec_C3 (cfg : Cfg) (sys : SysInfo) (fuel : ℕ) (s : LoopState)
    (hguard : s.tt + 1 < cfg.times.length)
    (hfin : s.tt = cfg.times.length - 2)
    (hmerged : s.merged = false)
    (hnotrig : ¬(TinspW cfg sys < s.T_elapsed + dtW cfg s.tt ∧ s.inspFlag = false)) :
    (runLoop cfg sys (fuel + 1) s).reason = Reason.exhausted ∧
    (runLoop cfg sys (fuel + 1) s).merger_redz = some 0 ∧
    (runLoop cfg sys (fuel + 1) s).merger_redz ≠ nanResult.merger_redz := by
  have hrun : runLoop cfg sys (fuel + 1) s =
      exhaustResult cfg (fullStep cfg (seedOf cfg sys s) s.tt s) := by
    rw [runLoop, if_pos hguard, mergerPhase, if_neg hnotrig]
    dsimp only
    rw [if_pos hfin]
  rw [hrun]
  refine ⟨rfl, ?_, ?_⟩ <;>
    simp [exhaustResult, fullStep, mkResult, nanResult, hmerged]

/-- Witness for C3: `sysT` outlives the whole epoch span of `cfgT`
starting from the final epoch boundary state. -/
theorem spec_C3_witness :
    (runLoop cfgT sysT (4 + 1) { initState cfgT sysT with tt := 1 }).reason =
      Reason.exhausted ∧
    (runLoop cfgT sysT (4 + 1) { initState cfgT sysT with tt := 1 }).merger_redz =
      some 0 ∧
    (runLoop cfgT sysT (4 + 1) { initState cfgT sysT with tt := 1 }).merger_redz ≠
      nanResult.merger_redz :=
  spec_C3 cfgT sysT 4 { initState cfgT sysT with tt := 1 }
    (by norm_num [cfgT, initState])
    (by norm_num [cfgT, initState])
    rfl
    (by norm_num [cfgT, sysT, initState, TinspW, dtW, wk, Tcgs_to_nat])

/-- C4 (amended): the wall-clock budget is consulted exactly once per
loop iteration, between epoch steps — after the full epoch segment has
been dispatched and after the epoch-exhaustion check.  When that
between-steps check observes elapsed time strictly above `Tint_max` at a
non-final epoch step in which no `Tinsp_lim` merger-stop ended the run,
the run stops with terminal condition TIMED_OUT and merger redshift
sentinel `-1`; the segment just dispatched is the full epoch interval —
the budget can never truncate a dispatched segment.  (At the final epoch
step the exhaustion check takes precedence and its own sentinel is
returned even if the budget is exceeded; see the counterexample.) -/
theorem spec_C4 (cfg : Cfg) (sys : SysInfo) (fuel : ℕ) (s : LoopState)
    (hguard : s.tt + 1 < cfg.times.length)
    (hnotfin : s.tt ≠ cfg.times.length - 2)
    (hnostop : ¬(cfg.TinspLim = true ∧
      TinspW cfg sys < s.T_elapsed + dtW cfg s.tt ∧ s.inspFlag = false))
    (hclock : cfg.TintMax < cfg.clock s.iter) :
    (runLoop cfg sys (fuel + 1) s).reason = Reason.timedOut ∧
    (runLoop cfg sys (fuel + 1) s).merger_redz = some (-1) ∧
    ∃ pre, (runLoop cfg sys (fuel + 1) s).segs =
      pre ++ [(potIdx cfg s.tt, dtW cfg s.tt)] := by
  by_cases htrig : TinspW cfg sys < s.T_elapsed + dtW cfg s.tt ∧ s.inspFlag = false
  · have hlim : cfg.TinspLim = false := by
      cases h : cfg.TinspLim with
      | false => rfl
      | true => exact absurd ⟨h, htrig⟩ hnostop
    have hrun : runLoop cfg sys (fuel + 1) s =
        timeoutResult cfg (fullStep cfg (seedOf cfg sys s) s.tt
          { s with
              inspFlag := true
              merged := true
              mz := some (mergerRedzVal cfg sys)
              orb := cfg.integ (seedOf cfg sys s) (potIdx cfg s.tt)
                       (TinspW cfg sys - s.T_elapsed)
              segs := s.segs ++ [(potIdx cfg s.tt,
                       TinspW cfg sys - s.T_elapsed)] }) := by
      have hlimneg : ¬(cfg.TinspLim = true) := by
        rw [hlim]; exact Bool.false_ne_true
      rw [runLoop, if_pos hguard, mergerPhase, if_pos htrig]
      dsimp only
      rw [if_neg hlimneg]
      dsimp only
      rw [if_neg hnotfin, if_pos hclock]
    rw [hrun]
    refine ⟨rfl, rfl, ?_⟩
    exact ⟨s.segs ++ [(potIdx cfg s.tt, TinspW cfg sys - s.T_elapsed)], rfl⟩
  · have hrun : runLoop cfg sys (fuel + 1) s =
        timeoutResult cfg (fullStep cfg (seedOf cfg sys s) s.tt s) := by
      rw [runLoop, if_pos hguard, mergerPhase, if_neg htrig]
      dsimp only
      rw [if_neg hnotfin, if_pos hclock]
    rw [hrun]
    exact ⟨rfl, rfl, s.segs, rfl⟩

/-- Witness for C4 (amended): with an exceeded budget at the non-final
first epoch step of a three-epoch configuration, the run times out with
sentinel -1 and the dispatched segment is the full epoch interval. -/
theorem spec_C4_witness :
    (runLoop cfgQ sysT (2 + 1) (initState cfgQ sysT)).reason = Reason.timedOut ∧
    (runLoop cfgQ sysT (2 + 1) (initState cfgQ sysT)).merger_redz = some (-1) ∧
    ∃ pre, (runLoop cfgQ sysT (2 + 1) (initState cfgQ sysT)).segs =
      pre ++ [(potIdx cfgQ (initState cfgQ sysT).tt,
               dtW cfgQ (initState cfgQ sysT).tt)] :=
  spec_C4 cfgQ sysT 2 (initState cfgQ sysT)
    (by norm_num [cfgQ, cfgT, initState])
    (by norm_num [cfgQ, cfgT, initState])
    (by norm_num [cfgQ, cfgT])
    (by norm_num [cfgQ, cfgT, initState])

/-- Counterexample for C4 as stated: in `cfgO` (one epoch interval, zero
wall-clock budget, a clock that reads 100 from the start) the surviving
system `sysT` has its elapsed wall-clock time above `Tint_max`
throughout, yet `integrate_orbits` returns merger redshift `0` (the
epoch-exhaustion sentinel), not `-1`: the exhaustion check at the final
epoch boundary precedes the budget check. -/
theorem spec_C4_cex :
    cfgO.TintMax < cfgO.clock 0 ∧ sysT.SNsurvive = true ∧
    (integrate_orbits cfgO sysT).merger_redz = some 0 ∧
    (integrate_orbits cfgO sysT).reason = Reason.exhausted ∧
    (integrate_orbits cfgO sysT).merger_redz ≠ some (-1) := by
  have hrun : integrate_orbits cfgO sysT =
      exhaustResult cfgO (fullStep cfgO (seedOf cfgO sysT (initState cfgO sysT))
        (initState cfgO sysT).tt (initState cfgO sysT)) := by
    have hlen : cfgO.times.length = 1 + 1 := rfl
    have h1 : integrate_orbits cfgO sysT =
        runLoop cfgO sysT (1 + 1) (initState cfgO sysT) := by
      rw [integrate_orbits, if_neg (by norm_num [sysT]), hlen]
    rw [h1, runLoop, if_pos (by norm_num [cfgO, cfgT, initState]), mergerPhase,
      if_neg (by norm_num [cfgO, cfgT, sysT, initState, TinspW, dtW, wk, Tcgs_to_nat])]
    dsimp only
    rw [if_pos (by norm_num [cfgO, cfgT, initState])]
  refine ⟨by norm_num [cfgO, cfgT], rfl, ?_, ?_, ?_⟩ <;>
    simp [hrun, exhaustResult, fullStep, mkResult, initState]

/-- C8: for every ensemble, with the per-system computation fixed (the
projection-rotation random source is part of the `transform` collaborator
of the configuration, so seeding it identically makes the per-system
function deterministic and identical in both modes), the parallel branch
of `Systems.evolve` — whose workers may complete in any scheduling order
`sched`, reassembled by `pool.map`'s input-index contract — produces
exactly the serial branch's per-system result list, hence equal
`X, Y, Z, vX, vY, vZ, R_offset, Rproj_offset, merger_redz` arrays stored
in ensemble order; the output never depends on completion order. -/
theorem spec_C8 (cfg : Cfg) (systems : List SysInfo) (sched : List ℕ)
    (hperm : sched.Perm (List.range systems.length)) :
    poolMapOrbits cfg systems sched = evolveSerial cfg systems ∧
    evolveArrays (poolMapOrbits cfg systems sched) =
      evolveArrays (evolveSerial cfg systems) := by
  have hmain : poolMapOrbits cfg systems sched = evolveSerial cfg systems := by
    apply List.ext_getElem
    · simp [poolMapOrbits, evolveSerial]
    · intro j h1 h2
      have hjlen : j < systems.length := by
        simpa [evolveSerial] using h2
      have hjmem : j ∈ sched := hperm.mem_iff.mpr (List.mem_range.mpr hjlen)
      simp only [poolMapOrbits, evolveSerial]
      rw [List.getElem_map, List.getElem_map, List.getElem_range]
      rw [lookup_map_graph (fun i => integrate_orbits cfg (systems.getD i sysDefault))
        sched j hjmem]
      rw [Option.getD_some, List.getD_eq_getElem systems sysDefault hjlen]
  exact ⟨hmain, by rw [hmain]⟩

/-- Witness for C8: two systems, scheduler completing in reversed
order. -/
theorem spec_C8_witness :
    poolMapOrbits cfgT [sysT, sysU] [1, 0] = evolveSerial cfgT [sysT, sysU] ∧
    evolveArrays (poolMapOrbits cfgT [sysT, sysU] [1, 0]) =
      evolveArrays (evolveSerial cfgT [sysT, sysU]) :=
  spec_C8 cfgT [sysT, sysU] [1, 0] (by
    have h : List.range ([sysT, sysU].length) = [0, 1] := rfl
    rw [h]
    exact List.Perm.swap 0 1 [])

/-- C6: for `e0 = 0` and target axis `af = 0`, `inspiral_time_peters`
returns exactly `a0^4/(4*beta)` with
`beta = (64/5)*(G^3/c^5)*m1*m2*(m1+m2)`, the code's `coef` constant
being the value of `G^3/c^5` in AU/Gyr/Msun units; and for `e0 = 0` with
any `af != 0` it signals the circular-binary error instead of computing
a target-axis result. -/
theorem spec_C6 (quadInt : ℝ → ℝ → ℝ) (odeE : ℝ → ℝ → ℝ → ℝ) (a0 m1 m2 af : ℝ) :
    (af = 0 → inspiral_time_peters quadInt odeE a0 0 m1 m2 af =
      PetersOut.time (a0 ^ 4 / (4 * beta m1 m2))) ∧
    (af ≠ 0 → inspiral_time_peters quadInt odeE a0 0 m1 m2 af = PetersOut.error) ∧
    beta m1 m2 = (64 / 5) * coefGc * m1 * m2 * (m1 + m2) := by
  refine ⟨?_, ?_, rfl⟩
  · intro h
    subst h
    simp [inspiral_time_peters]
  · intro h
    simp [inspiral_time_peters, h]

/-- Witness for C6 at concrete circular-orbit inputs, for a zero and a
non-zero target axis. -/
theorem spec_C6_witness :
    inspiral_time_peters quad0 ode0 1 0 1 1 0 =
      PetersOut.time (1 ^ 4 / (4 * beta 1 1)) ∧
    inspiral_time_peters quad0 ode0 1 0 1 1 1 = PetersOut.error :=
  ⟨(spec_C6 quad0 ode0 1 1 1 0).1 rfl, (spec_C6 quad0 ode0 1 1 1 1).2.1 one_ne_zero⟩

/-- C7 (amended): the cylindrical/Cartesian round trip is the identity
(exactly, hence within any floating tolerance) on the half-space
`x > 0`.  It is not the identity on all of `(x, y) ≠ (0, 0)`:
`cartesian_to_cylindrical` computes the azimuth as `arctan(y/x)`, which
folds every point into the `x > 0` half-plane, so inputs with `x < 0`
come back mirrored (see the counterexample); the `x = 0` line rests on
IEEE-infinity arithmetic outside this real-number embedding. -/
theorem spec_C7 (x y z vx vy vz : ℝ) (hx : 0 < x) :
    roundTrip x y z vx vy vz = (x, y, z, vx, vy, vz) := by
  have hxne : x ≠ 0 := ne_of_gt hx
  have hsum : (0:ℝ) < x ^ 2 + y ^ 2 := by positivity
  set r := Real.sqrt (x ^ 2 + y ^ 2) with hrdef
  have hrpos : 0 < r := Real.sqrt_pos.mpr hsum
  have hrne : r ≠ 0 := ne_of_gt hrpos
  have hr2 : r ^ 2 = x ^ 2 + y ^ 2 := Real.sq_sqrt hsum.le
  have hsq : Real.sqrt (1 + (y / x) ^ 2) = r / x := by
    have h1 : 1 + (y / x) ^ 2 = (x ^ 2 + y ^ 2) / x ^ 2 := by
      field_simp
    rw [h1, Real.sqrt_div hsum.le, Real.sqrt_sq hx.le]
  have hcos : Real.cos (Real.arctan (y / x)) = x / r := by
    rw [Real.cos_arctan, hsq, one_div_div]
  have hsin : Real.sin (Real.arctan (y / x)) = y / r := by
    rw [Real.sin_arctan, hsq]
    field_simp
  simp only [roundTrip, cartesian_to_cylindrical, cylindrical_to_cartesian, ← hrdef,
    hcos, hsin, Prod.mk.injEq]
  refine ⟨?_, ?_, trivial, ?_, ?_, trivial⟩
  · field_simp
  · field_simp
  · field_simp
    linear_combination (-x * (x * vx + y * vy)) * hr2
  · field_simp
    linear_combination (-y * (x * vx + y * vy)) * hr2

/-- Witness for C7 (amended) at a concrete state in the `x > 0`
half-space. -/
theorem spec_C7_witness :
    roundTrip 1 2 3 4 5 6 = ((1 : ℝ), 2, 3, 4, 5, 6) :=
  spec_C7 1 2 3 4 5 6 one_pos

/-- Counterexample for C7 as stated: at `(x, y) = (-1, 0)` — a
non-degenerate input — the round trip returns `x = +1`, the mirror
image, because `arctan(y/x) = arctan(0) = 0` loses the half-plane. -/
theorem spec_C7_cex :
    roundTrip (-1) 0 0 0 0 0 ≠ ((-1 : ℝ), 0, 0, 0, 0, 0) := by
  have heval : roundTrip (-1) 0 0 0 0 0 = ((1 : ℝ), 0, 0, 0, 0, 0) := by
    have h1 : ((-1 : ℝ) ^ 2 + 0 ^ 2) = 1 := by norm_num
    simp [roundTrip, cartesian_to_cylindrical, cylindrical_to_cartesian, h1]
  rw [heval]
  intro h
  have h2 : (1 : ℝ) = -1 := congrArg (fun p => p.1) h
  norm_num at h2

/-- A NaN-aware comparison returning true forces both sides real. -/
theorem rval_le_true {a b : RVal} (h : RVal.le a b = true) :
    ∃ x y, a = RVal.val x ∧ b = RVal.val y ∧ x ≤ y := by
  cases a with
  | nan => simp [RVal.le] at h
  | val x =>
    cases b with
    | nan => simp [RVal.le] at h
    | val y => exact ⟨x, y, rfl, rfl, of_decide_eq_true (by simpa [RVal.le] using h)⟩

/-- A NaN-aware division with a real result forces a real, non-zero
divisor. -/
theorem rval_div_val {p q : ℝ} {b : RVal} (h : RVal.div (RVal.val p) b = RVal.val q) :
    ∃ a : ℝ, b = RVal.val a := by
  cases b with
  | nan => simp [RVal.div] at h
  | val a => exact ⟨a, rfl⟩

/-- C5: in `check_survival`, Check 4's quadratic is evaluated only over
the subset of systems satisfying `epost <= 1`: a system whose `epost`
exceeds 1 gets `SNcheck4 = False` from the first condition alone —
uniformly in every other field of the row, so no value of the quadratic
is consulted — and the ensemble survival flags are computed elementwise,
so no domain error or NaN arising from such a system can affect any
other system's survival result. -/
theorem spec_C5 (rows : List Row) (i : ℕ) (hi : i < rows.length) (e : ℝ)
    (he : (rows.getD i rowD).epost = RVal.val e) (hgt : 1 < e) :
    (∀ r : Row, r.epost = RVal.val e → SNcheck4 r = false) ∧
    SNsurviveSys (rows.getD i rowD) = false ∧
    (∀ j, j < rows.length →
      (check_survival rows).getD j false = SNsurviveSys (rows.getD j rowD)) := by
  have hc4 : ∀ r : Row, r.epost = RVal.val e → SNcheck4 r = false := by
    intro r hrow
    unfold SNcheck4
    rw [hrow]
    have hle : RVal.le (RVal.val e) (RVal.val 1) = false := by
      simp only [RVal.le]
      exact decide_eq_false (not_le.mpr hgt)
    rw [hle]
    simp
  refine ⟨hc4, ?_, ?_⟩
  · unfold SNsurviveSys
    rw [hc4 _ he]
    simp
  · intro j hj
    unfold check_survival
    rw [List.getD_eq_getElem _ false (by simpa using hj), List.getElem_map,
      List.getD_eq_getElem rows rowD hj]

/-- Witness for C5: a singleton ensemble whose only row has
`epost = 2 > 1`. -/
theorem spec_C5_witness :
    (∀ r : Row, r.epost = RVal.val 2 → SNcheck4 r = false) ∧
    SNsurviveSys ([rowE].getD 0 rowD) = false ∧
    (∀ j, j < [rowE].length →
      (check_survival [rowE]).getD j false = SNsurviveSys ([rowE].getD j rowD)) :=
  spec_C5 [rowE] 0 (by norm_num) 2 rfl one_lt_two

/-- C10: after `check_survival`, `SNsurvive = True` forces a real
post-kick eccentricity `epost <= 1` (Check 4's first condition rejects
both `epost > 1` and NaN `epost`, since a NaN comparison is false) and a
real `Apost` (Check 1's comparison against `Apre/Apost` is false when
the quotient is NaN); consequently `Systems.inspiral_time` evaluates the
Peters formula only for surviving systems, on a bound orbit with real
eccentricity, and assigns NaN to every non-surviving system. -/
theorem spec_C10 (uc : UnitConv) (quadInt : ℝ → ℝ → ℝ) (rows : List Row)
    (i : ℕ) (hi : i < rows.length) :
    (SNsurviveSys (rows.getD i rowD) = true →
      ∃ e a : ℝ, (rows.getD i rowD).epost = RVal.val e ∧ e ≤ 1 ∧
        (rows.getD i rowD).Apost = RVal.val a ∧
        (inspiral_times uc quadInt rows).getD i RVal.nan =
          RVal.val (petersTmerge quadInt (a * uc.cmToAU) e
            ((rows.getD i rowD).Mcomp * uc.gToMsun)
            ((rows.getD i rowD).Mns * uc.gToMsun) * uc.gyrToS)) ∧
    (SNsurviveSys (rows.getD i rowD) = false →
      (inspiral_times uc quadInt rows).getD i RVal.nan = RVal.nan) := by
  set r := rows.getD i rowD with hr
  have hmap : (inspiral_times uc quadInt rows).getD i RVal.nan =
      (if SNsurviveSys r = true then
        match r.Apost, r.epost with
        | RVal.val a, RVal.val e =>
            RVal.val (petersTmerge quadInt (a * uc.cmToAU) e
              (r.Mcomp * uc.gToMsun) (r.Mns * uc.gToMsun) * uc.gyrToS)
        | _, _ => RVal.nan
      else RVal.nan) := by
    unfold inspiral_times
    rw [List.getD_eq_getElem _ RVal.nan (by simpa using hi), List.getElem_map, hr,
      List.getD_eq_getElem rows rowD hi]
  constructor
  · intro hs
    have hsplit := hs
    unfold SNsurviveSys at hsplit
    simp only [Bool.and_eq_true] at hsplit
    obtain ⟨⟨⟨h1, _h2⟩, _h3⟩, h4⟩ := hsplit
    -- Check 4 true forces a real epost with e <= 1.
    unfold SNcheck4 at h4
    by_cases hg : RVal.le r.epost (RVal.val 1) = true
    · obtain ⟨e, o, hepost, hone, hle⟩ := rval_le_true hg
      have hoe : o = 1 := by
        injection hone.symm
      rw [hoe] at hle
      -- Check 1 true forces a real Apost.
      unfold SNcheck1 at h1
      simp only [Bool.and_eq_true] at h1
      obtain ⟨e1, d1, _, hdiv, _⟩ := rval_le_true h1.1
      obtain ⟨a, hApost⟩ := rval_div_val hdiv
      refine ⟨e, a, hepost, hle, hApost, ?_⟩
      rw [hmap, if_pos hs, hApost, hepost]
    · rw [if_neg hg] at h4
      exact absurd h4 Bool.false_ne_true
  · intro hns
    rw [hmap, if_neg (by simp [hns])]

/-- Witness for C10: the singleton ensemble with the unbound row
`rowE`. -/
theorem spec_C10_witness :
    (SNsurviveSys ([rowE].getD 0 rowD) = true →
      ∃ e a : ℝ, ([rowE].getD 0 rowD).epost = RVal.val e ∧ e ≤ 1 ∧
        ([rowE].getD 0 rowD).Apost = RVal.val a ∧
        (inspiral_times uc0 quad0 [rowE]).getD 0 RVal.nan =
          RVal.val (petersTmerge quad0 (a * uc0.cmToAU) e
            (([rowE].getD 0 rowD).Mcomp * uc0.gToMsun)
            (([rowE].getD 0 rowD).Mns * uc0.gToMsun) * uc0.gyrToS)) ∧
    (SNsurviveSys ([rowE].getD 0 rowD) = false →
      (inspiral_times uc0 quad0 [rowE]).getD 0 RVal.nan = RVal.nan) :=
  spec_C10 uc0 quad0 [rowE] 0 (by norm_num)

end KickIT
